import Mathlib

set_option maxHeartbeats 1000000

/- Formal model of the SMAC-M map-file generator sources:
   chart-installation/generate_map_files/mapgen/chartsymbols.py
   (the ChartSymbols catalog loader) and
   chart-installation/generate_map_files/generate_map_config.py
   (the configuration entry point).

   Python dictionaries are modelled as insertion-ordered association lists
   whose keys are Option String: an absent XML attribute or an element with
   no text yields the key None, exactly as ElementTree's get/.text do.
   Modules imported by chartsymbols.py that are not part of the sources
   (mapgen.cs, mapgen.filters, mapgen.instructions, mapgen.layer,
   mapgen.lookup, utils.dirutils) are modelled from the spec; each such
   definition carries a doc comment saying so. -/

/-- Python d.get(k) on a dict: the value of the first matching key, if any. -/
def dictGet {α : Type} : List (Option String × α) → Option String → Option α
  | [], _ => none
  | (k, v) :: rest, q => if k = q then some v else dictGet rest q

/-- Python dict assignment d[k] = v: replace the first binding in place,
otherwise append a fresh binding at the end (insertion order). -/
def dictAssign {α : Type} : List (Option String × α) → Option String → α → List (Option String × α)
  | [], q, v => [(q, v)]
  | (k, w) :: rest, q, v =>
    if k = q then (q, v) :: rest else (k, w) :: dictAssign rest q v

/-- Python d.setdefault(k, []): keep the dict when the key is present,
otherwise bind the key to the empty list at the end. -/
def dictSetdefault {α : Type} (d : List (Option String × List α)) (q : Option String) :
    List (Option String × List α) :=
  if (dictGet d q).isSome then d else d ++ [(q, [])]

/-- Appending one element to the list stored at a key (the aliased
lookup_table.append(lookup) of load_lookups); no effect when the key is absent. -/
def dictAppendOne {α : Type} : List (Option String × List α) → Option String → α → List (Option String × List α)
  | [], _, _ => []
  | (k, w) :: rest, q, x =>
    if k = q then (k, w ++ [x]) :: rest else (k, w) :: dictAppendOne rest q x

/-- The net dict effect of load_lookups on one accepted lookup:
setdefault(name, []) followed by appending each produced entry in order. -/
def appendEntries {α : Type} (d : List (Option String × List α)) (q : Option String)
    (es : List α) : List (Option String × List α) :=
  es.foldl (fun d2 x => dictAppendOne d2 q x) (dictSetdefault d q)

/-- One-pass append-or-insert on an association list; proved below to agree
with appendEntries. -/
def dictUpsert {α : Type} : List (Option String × List α) → Option String → List α → List (Option String × List α)
  | [], q, es => [(q, es)]
  | (k, w) :: rest, q, es =>
    if k = q then (k, w ++ es) :: rest else (k, w) :: dictUpsert rest q es

/-- Python int(text) on an optional attribute string: None or an unparsable
string raises, i.e. yields none. -/
def pyInt (s : Option String) : Option Int :=
  s.bind (fun t => t.trim.toInt?)

/-- Splitting a character list on a separator character, with Python
str.split semantics: the empty list yields one empty field and consecutive
separators yield empty fields. -/
def splitCharList (c : Char) : List Char → List (List Char)
  | [] => [[]]
  | x :: xs =>
    let r := splitCharList c xs
    if x = c then [] :: r
    else
      match r with
      | h :: t => (x :: h) :: t
      | [] => [[x]]

/-- Python str.split(sep) for a one-character separator. -/
def pySplit (c : Char) (s : String) : List String :=
  (splitCharList c s.data).map String.mk

/-- Python str.lower, character by character. -/
def pyLower (s : String) : String :=
  String.mk (s.data.map Char.toLower)

/-- XML pivot element of a symbol bitmap: its x and y attributes. -/
structure PivotNode where
  x : Option String
  y : Option String
deriving DecidableEq

/-- XML bitmap element of a symbol: optional pivot child, width and height
attributes. -/
structure BitmapNode where
  pivot : Option PivotNode
  width : Option String
  height : Option String
deriving DecidableEq

/-- XML symbol element: nameText is none when the name child element is
missing (find returns None and .text raises); the inner Option is the text. -/
structure SymbolNode where
  nameText : Option (Option String)
  bitmap : Option BitmapNode
deriving DecidableEq

/-- The dict value stored in symbols_def for one symbol. -/
structure SymbolDef where
  pivot : Int × Int
  size : Int × Int
deriving DecidableEq

/-- Field extraction of ChartSymbols.load_symbols for one symbol element;
none exactly when the Python body raises (missing name child, missing
bitmap, missing pivot, or a width/height/x/y attribute that is absent or
not an integer). -/
def parseSymbol (s : SymbolNode) : Option (Option String × SymbolDef) :=
  match s.nameText, s.bitmap with
  | some nm, some bm =>
    match bm.pivot with
    | some pv =>
      match pyInt bm.width, pyInt bm.height, pyInt pv.x, pyInt pv.y with
      | some w, some h, some px, some py => some (nm, ⟨(px, py), (w, h)⟩)
      | _, _, _, _ => none
    | none => none
  | _, _ => none

/-- One iteration of the symbol loop of load_symbols: on success assign
symbols_def[name], on an exception continue with the dict unchanged. -/
def loadSymbolsStep (d : List (Option String × SymbolDef)) (s : SymbolNode) :
    List (Option String × SymbolDef) :=
  match parseSymbol s with
  | none => d
  | some (k, v) => dictAssign d k v

/-- ChartSymbols.load_symbols restricted to the symbol elements (the
line-style and pattern loops live in modules outside the sources). -/
def load_symbols (d : List (Option String × SymbolDef)) (nodes : List SymbolNode) :
    List (Option String × SymbolDef) :=
  nodes.foldl loadSymbolsStep d

/-- An instruction command as returned by get_command: either a
conditional-symbology command with its procedure name, or any other command
kept as parsed text. -/
inductive Command where
  | cs (proc : String)
  | other (raw : String)
deriving DecidableEq

/-- Modelled from the spec: mapgen.instructions.get_command (not under src/)
parses one semicolon-separated part of an S-52 instruction string; a
conditional-symbology part CS(PROC) becomes a CS command carrying the
procedure name, and anything else an ordinary command. -/
def get_command (part : String) : Command :=
  if part.data.take 3 = ['C', 'S', '('] then
    Command.cs
      (String.mk
        (let l := part.data.drop 3
         if l.getLast? = some ')' then l.dropLast else l))
  else Command.other part

/-- Modelled from the spec: mapgen.layer.DisplayPriority (not under src/).
We keep the raw disp-prio text, plus the named constants chartsymbols.py
uses directly. -/
inductive DisplayPriority where
  | noPriority
  | areaSymbol
  | fromText (t : Option String)
deriving DecidableEq

/-- Modelled from the spec: DisplayPriority.get maps the disp-prio text of a
lookup element to a priority. -/
def DisplayPriority.get (t : Option String) : DisplayPriority := .fromText t

/-- Modelled from the spec: mapgen.lookup.Lookup (not under src/) -- one
lookup rule, with the constructor fields chartsymbols.py passes; omitted
constructor arguments default as here. -/
structure LookupRec where
  idStr : Option String := none
  table : Option String := none
  display : Option String := none
  comment : Option String := none
  instruction : List Command := []
  rules : List (Option String) := []
  priority : DisplayPriority := .noPriority
deriving DecidableEq

/-- Right-biased choice on optional fields, used by the lookup combination. -/
def optOr (a b : Option String) : Option String :=
  match b with
  | some x => some x
  | none => a

/-- Modelled from the spec: the Lookup @ operator combines a base lookup
with an expanded one; set fields of the right operand take precedence and
instruction and rule lists concatenate. -/
def LookupRec.matmulOne (a b : LookupRec) : LookupRec :=
  ⟨optOr a.idStr b.idStr, optOr a.table b.table, optOr a.display b.display,
   optOr a.comment b.comment, a.instruction ++ b.instruction, a.rules ++ b.rules,
   match b.priority with
   | .noPriority => a.priority
   | pr => pr⟩

/-- Modelled from the spec: combining a collection of lookups with a list of
lookups via @ yields every pairwise combination, left factors outermost. -/
def matmulList (xs ys : List LookupRec) : List LookupRec :=
  xs.flatMap (fun a => ys.map (fun b => a.matmulOne b))

/-- Modelled from the spec: Lookup.add_instruction appends the parsed
command to the instruction list of every lookup of the collection. -/
def addInstructionAll (xs : List LookupRec) (c : Command) : List LookupRec :=
  xs.map (fun a => { a with instruction := a.instruction ++ [c] })

/-- Modelled from the spec: mapgen.cs.lookups_from_cs (not under src/)
expands a conditional-symbology procedure into multiple concrete lookups
for the given lookup type and feature name; modelled as two concrete
expanded rules tagged with the procedure. -/
def lookups_from_cs (proc : String) (ltype : Option String) (nm : Option String) :
    List LookupRec :=
  [{ idStr := nm, table := ltype, comment := some (proc ++ ".1") },
   { idStr := nm, table := ltype, comment := some (proc ++ ".2") }]

/-- XML lookup element as seen by load_lookups: attributes name and id
(never raising), the texts of the required child elements (outer none when
the child element is missing, which raises AttributeError in Python), and
the attrib-code children texts. -/
structure LookupNode where
  nameAttr : Option String
  idAttr : Option String
  typeText : Option (Option String)
  tableNameText : Option (Option String)
  displayCatText : Option (Option String)
  commentText : Option (Option String)
  instructionText : Option (Option String)
  attribCodes : List (Option String)
  dispPrioText : Option (Option String)
deriving DecidableEq

/-- The fields load_lookups extracts from one lookup element. -/
structure ParsedLookup where
  name : Option String
  idStr : Option String
  lookupType : Option String
  tableName : Option String
  display : Option String
  comment : Option String
  strInstruction : String
  rules : List (Option String)
  prioText : Option String
deriving DecidableEq

/-- Field extraction of load_lookups for one lookup element; none exactly
when a required child element is missing, in which case the except clause
continues with the next element. The instruction text defaults to the
empty string (the Python or expression). -/
def parseLookup (n : LookupNode) : Option ParsedLookup :=
  match n.typeText, n.tableNameText, n.displayCatText, n.commentText,
      n.instructionText, n.dispPrioText with
  | some ty, some tn, some dc, some cm, some ins, some dp =>
    some ⟨n.nameAttr, n.idAttr, ty, tn, dc, cm, ins.getD "", n.attribCodes, dp⟩
  | _, _, _, _, _, _ => none

/-- The Lookup object load_lookups constructs for an accepted element,
before instruction processing. -/
def baseLookup (p : ParsedLookup) : LookupRec :=
  ⟨p.idStr, p.tableName, p.display, p.comment, [], p.rules, DisplayPriority.get p.prioText⟩

/-- One iteration of the instruction-part loop of load_lookups: empty parts
are skipped, a CS part combines the running lookups with the expansion of
its procedure, and any other part is added as an instruction. -/
def partStep (ltype nm : Option String) (acc : List LookupRec) (part : String) :
    List LookupRec :=
  if part = "" then acc
  else
    match get_command part with
    | Command.cs proc => matmulList acc (lookups_from_cs proc ltype nm)
    | Command.other c => addInstructionAll acc (Command.other c)

/-- The full instruction expansion of load_lookups for one accepted lookup:
split the instruction text on semicolons and fold the part loop over the
single base lookup. -/
def expandInstructions (p : ParsedLookup) : List LookupRec :=
  (pySplit ';' p.strInstruction).foldl (partStep p.lookupType p.name) [baseLookup p]

/-- The configuration load_lookups runs under: the point and area table
names, the display categories (none models the AllInclusive default that
accepts every category), and the excluded lookup names. -/
structure LookupCfg where
  pointTable : String
  areaTable : String
  displaycategory : Option (List String)
  excluded : List String
deriving DecidableEq

/-- ChartSymbols.__init__ keeps the class default excluded_lookups list
(the single name M_QUAL) when the excluded_lookups argument is None. -/
def mkCfg (pointTable areaTable : String) (cats : Option (List String))
    (excl : Option (List String)) : LookupCfg :=
  ⟨pointTable, areaTable, cats, excl.getD ["M_QUAL"]⟩

/-- Python membership of an optional string in a string list: None is never
a member. -/
def memOpt (n : Option String) (l : List String) : Bool :=
  match n with
  | none => false
  | some s => l.contains s

/-- The table-name filter of load_lookups: table_name in
(point_style, area_style, 'Lines'). -/
def tableMatch (cfg : LookupCfg) (p : ParsedLookup) : Bool :=
  p.tableName == some cfg.pointTable || p.tableName == some cfg.areaTable ||
    p.tableName == some "Lines"

/-- The display-category filter of load_lookups: display in displaycategory,
where the AllInclusive default contains everything. -/
def catMatch (cfg : LookupCfg) (p : ParsedLookup) : Bool :=
  match cfg.displaycategory with
  | none => true
  | some l =>
    match p.display with
    | some d => l.contains d
    | none => false

/-- The key of the virtual X-SNDG point lookup. -/
def xsndgKey : Option String := some "X-SNDG"

/-- The value assigned to point_lookups['X-SNDG'] on every loop iteration
that reaches it: the virtual base lookup combined with the Paper and
Simplified table variants and with the SOUNDG conditional-symbology
expansion. -/
def xsndgValue : List LookupRec :=
  matmulList
    (matmulList
      [⟨some "X-SNDG", none, none, some "non-SOUNDG features with sounding", [], [],
        .areaSymbol⟩]
      [{ table := some "Paper" }, { table := some "Simplified" }])
    (lookups_from_cs "SOUNDG" (some "Point") (some "X-SNDG"))

/-- The three lookup dictionaries of a ChartSymbols catalog. -/
structure Tables where
  point : List (Option String × List LookupRec)
  line : List (Option String × List LookupRec)
  polygon : List (Option String × List LookupRec)
deriving DecidableEq

/-- The state ChartSymbols.__init__ resets the lookup dictionaries to
before calling load_lookups. -/
def emptyTables : Tables := ⟨[], [], []⟩

/-- The unconditional tail of each accepted loop iteration: assign the
virtual X-SNDG entry into point_lookups. -/
def xsndgAssigned (st : Tables) : Tables :=
  { st with point := dictAssign st.point xsndgKey xsndgValue }

/-- One iteration of the lookup loop of ChartSymbols.load_lookups: skip
elements whose extraction raises and elements with an excluded name; for
the rest, when the table-name and display-category filters pass, route the
expanded entries into the dictionary chosen by the type text (any other
type text appends to a discarded fresh list), and in every case end the
iteration by assigning the virtual X-SNDG point entry. -/
def processLookupNode (cfg : LookupCfg) (st : Tables) (node : LookupNode) : Tables :=
  match parseLookup node with
  | none => st
  | some p =>
    if memOpt p.name cfg.excluded then st
    else
      let st1 :=
        if tableMatch cfg p && catMatch cfg p then
          let entries := expandInstructions p
          if p.lookupType = some "Point" then
            { st with point := appendEntries st.point p.name entries }
          else if p.lookupType = some "Line" then
            { st with line := appendEntries st.line p.name entries }
          else if p.lookupType = some "Area" then
            { st with polygon := appendEntries st.polygon p.name entries }
          else st
        else st
      xsndgAssigned st1

/-- ChartSymbols.load_lookups folded over the lookup elements in document
order, from an arbitrary starting state. -/
def loadLookupsFrom (cfg : LookupCfg) (st : Tables) (nodes : List LookupNode) : Tables :=
  nodes.foldl (processLookupNode cfg) st

/-- ChartSymbols.load_lookups as called by __init__, on freshly emptied
lookup dictionaries. -/
def load_lookups (cfg : LookupCfg) (nodes : List LookupNode) : Tables :=
  loadLookupsFrom cfg emptyTables nodes

/-- A lookup element is active when its extraction succeeds and its name is
not excluded: exactly the iterations that run past the two continue
statements. -/
def nodeActive (cfg : LookupCfg) (node : LookupNode) : Bool :=
  match parseLookup node with
  | none => false
  | some p => !memOpt p.name cfg.excluded

/-- A Color of chartsymbols.py: the raw r, g and b attribute strings of a
color element (ElementTree get, so an absent attribute is None). -/
structure Color where
  r : Option String
  g : Option String
  b : Option String
deriving DecidableEq

/-- XML color element: its name, r, g and b attributes. -/
structure ColorNode where
  cname : Option String
  r : Option String
  g : Option String
  b : Option String
deriving DecidableEq

/-- XML color-table element: its name attribute and contained color
elements in document order. -/
structure ColorTableNode where
  tname : Option String
  colors : List ColorNode
deriving DecidableEq

/-- The inner dict built by load_color_table for one color-table element:
each contained color's name mapped to a Color of its r, g, b attributes. -/
def colorsOfTable (t : ColorTableNode) : List (Option String × Color) :=
  t.colors.foldl (fun d c => dictAssign d c.cname ⟨c.r, c.g, c.b⟩) []

/-- ChartSymbols.load_color_table: every color-table element's name mapped
to its color dict. -/
def load_color_table (nodes : List ColorTableNode) :
    List (Option String × List (Option String × Color)) :=
  nodes.foldl (fun ts t => dictAssign ts t.tname (colorsOfTable t)) []

/-- ChartSymbols.load_colors: the active color table is the table with the
configured name, defaulting to the empty dict. -/
def load_colors (tables : List (Option String × List (Option String × Color)))
    (ctName : String) : List (Option String × Color) :=
  (dictGet tables (some ctName)).getD []

/-- Modelled from the spec: mapgen.layer.Layer (not under src/) holds the
constructor arguments chartsymbols.py passes when emitting a layer; the
catalog back-reference is omitted. -/
structure LayerRec where
  layerArg : String
  feature : String
  geomType : String
  group : String
  msd : String
  fields : List String
  lookups : List LookupRec
deriving DecidableEq

/-- Modelled from the spec: mapgen.layer.LightsLayer (not under src/) wraps
an already built Layer. -/
inductive MapfileLayer where
  | plain (l : LayerRec)
  | lights (l : LayerRec)
deriving DecidableEq

/-- The Layer a MapfileLayer was built around. -/
def MapfileLayer.inner : MapfileLayer → LayerRec
  | .plain l => l
  | .lights l => l

/-- ChartSymbols.get_point_mapfile: a POINT layer from the point_lookups
entry of the feature (empty-list default), wrapped in a LightsLayer for
the LIGHTS feature. -/
def get_point_mapfile (st : Tables) (layerArg feature group msd : String)
    (fields : List String) : MapfileLayer :=
  let l : LayerRec :=
    ⟨layerArg, feature, "POINT", group, msd, fields,
      (dictGet st.point (some feature)).getD []⟩
  if feature = "LIGHTS" then .lights l else .plain l

/-- ChartSymbols.get_line_mapfile: a plain LINE layer from the line_lookups
entry of the feature type (empty-list default). -/
def get_line_mapfile (st : Tables) (layerArg featureType group msd : String)
    (fields : List String) : MapfileLayer :=
  .plain ⟨layerArg, featureType, "LINE", group, msd, fields,
    (dictGet st.line (some featureType)).getD []⟩

/-- ChartSymbols.get_poly_mapfile: a plain POLYGON layer from the
polygon_lookups entry of the feature type (empty-list default). -/
def get_poly_mapfile (st : Tables) (layerArg featureType group msd : String)
    (fields : List String) : MapfileLayer :=
  .plain ⟨layerArg, featureType, "POLYGON", group, msd, fields,
    (dictGet st.polygon (some featureType)).getD []⟩

/-- The data-format argument of generate_map_config.py. -/
inductive Format where
  | Chart
  | BaseChart
  | GeoTIF
  | Elevation
  | AML
deriving DecidableEq

/-- The command-line string of each format value. -/
def Format.str : Format → String
  | .Chart => "chart"
  | .BaseChart => "basechart"
  | .GeoTIF => "geotif"
  | .Elevation => "elevation"
  | .AML => "aml"

/-- The paths table of the TOML configuration. -/
structure PathsTbl where
  data : Option String := none
  mapDir : Option String := none
  ruleset : Option String := none
  chartsymbols : Option String := none
deriving DecidableEq

/-- The TOML configuration keys generate_map_config.py reads. -/
structure TomlConfig where
  debug : Option Bool := none
  paths : Option PathsTbl := none
  point_table : Option String := none
  tablename : Option String := none
  area_table : Option String := none
  displaycategory : Option String := none
  topmark_type : Option String := none
  excluded_lookups : Option (List String) := none
deriving DecidableEq

/-- config_relative of generate_map_config.py joins a configured path onto
the configuration file's directory; the abspath/normpath cleanup, which
needs a filesystem, is elided and absolute paths are kept as is. -/
def joinRel (base p : String) : String :=
  if p.data.take 1 = ['/'] then p else base ++ "/" ++ p

/-- The RESOURCES_PATH constant, the resources folder next to the script
(abspath elided). -/
def RESOURCES_PATH : String := "resources"

/-- Modelled from the spec: utils.dirutils.force_sub_dir (not under src/)
makes the path end in the given subdirectory. -/
def forceSubDir (p sub : String) : String :=
  if List.isSuffixOf ("/" ++ sub).data p.data then p else p ++ "/" ++ sub

/-- The values the __main__ block of generate_map_config.py hands to chart
generation when it does not exit early. -/
structure ResolvedRun where
  dataPath : String
  mapPath : String
  ruleSetPath : String
  chartsymbolsPath : String
  pointTable : String
  areaTable : String
  displaycategory : List String
  topmarFloating : String
  excludedLookups : Option (List String)
deriving DecidableEq

/-- The outcome of the __main__ block: an early exit with a status code and
stderr message, or a resolved run. -/
inductive MainOutcome where
  | exitErr (code : Nat) (msg : String)
  | run (r : ResolvedRun)
deriving DecidableEq

/-- The decision logic of the __main__ block of generate_map_config.py:
a missing paths.data key exits first with status 1; then tables, paths and
display categories are resolved in order, an invalid topmark_type exits
with status 2, and a non-chart format exits with status 1. Falsy (empty)
configured paths fall back to their defaults exactly as the Python
not-tests do. Filesystem side steps (directory creation, existence
warnings, os.environ, chdir) carry no data and are elided. -/
def mainLogic (baseDir : String) (cfg : TomlConfig) (fmt : Format) : MainOutcome :=
  match cfg.paths with
  | none => .exitErr 1 "Data path missing from configuration file"
  | some paths =>
    match paths.data with
    | none => .exitErr 1 "Data path missing from configuration file"
    | some dataRel =>
      let pointTable :=
        match cfg.tablename with
        | some t => t
        | none => cfg.point_table.getD "Simplified"
      let areaTable := cfg.area_table.getD "Plain"
      let dataPath := joinRel baseDir dataRel
      let mapPath :=
        match paths.mapDir with
        | some m => if m = "" then joinRel dataPath "../map" else joinRel baseDir m
        | none => joinRel dataPath "../map"
      let ruleSetPath :=
        forceSubDir
          (match paths.ruleset with
           | some rp => if rp = "" then RESOURCES_PATH else joinRel baseDir rp
           | none => RESOURCES_PATH)
          "rules"
      let csPath :=
        match paths.chartsymbols with
        | some c =>
          if c = "" then joinRel RESOURCES_PATH "chartsymbols/chartsymbols_S57.xml"
          else joinRel baseDir c
        | none => joinRel RESOURCES_PATH "chartsymbols/chartsymbols_S57.xml"
      let displaycategory :=
        pySplit ',' (cfg.displaycategory.getD "Standard") ++ ["Displaybase"]
      let topmar := pyLower (cfg.topmark_type.getD "rigid")
      if topmar = "rigid" ∨ topmar = "floating" then
        match fmt with
        | .Chart =>
          .run ⟨dataPath, mapPath, ruleSetPath, csPath, pointTable, areaTable,
            displaycategory, if topmar = "floating" then "1" else "",
            cfg.excluded_lookups⟩
        | f =>
          .exitErr 1 ("Data format " ++ f.str ++ " has not yet been ported to " ++
            "the configuration file. Use the old script to generate your mapfiles")
      else .exitErr 2 "topmark_type must be either floating or rigid"

theorem dictGet_dictAssign_self {α : Type} (d : List (Option String × α))
    (q : Option String) (v : α) : dictGet (dictAssign d q v) q = some v := by
  induction d with
  | nil => simp [dictAssign, dictGet]
  | cons kv rest ih =>
    obtain ⟨k, w⟩ := kv
    by_cases hk : k = q
    · simp [dictAssign, dictGet, hk]
    · simp [dictAssign, dictGet, hk, ih]

theorem dictGet_dictAssign_ne {α : Type} (d : List (Option String × α))
    (q q' : Option String) (v : α) (h : q' ≠ q) :
    dictGet (dictAssign d q v) q' = dictGet d q' := by
  induction d with
  | nil => simp [dictAssign, dictGet, Ne.symm h]
  | cons kv rest ih =>
    obtain ⟨k, w⟩ := kv
    by_cases hk : k = q
    · subst hk
      simp [dictAssign, dictGet, Ne.symm h, h]
    · by_cases hk' : k = q'
      · simp [dictAssign, dictGet, hk, hk', h, Ne.symm h]
      · simp [dictAssign, dictGet, hk, hk', ih]

theorem dictGet_dictUpsert_self {α : Type} (d : List (Option String × List α))
    (q : Option String) (es : List α) :
    dictGet (dictUpsert d q es) q = some ((dictGet d q).getD [] ++ es) := by
  induction d with
  | nil => simp [dictUpsert, dictGet]
  | cons kv rest ih =>
    obtain ⟨k, w⟩ := kv
    by_cases hk : k = q
    · simp [dictUpsert, dictGet, hk]
    · simp [dictUpsert, dictGet, hk, ih]

theorem dictGet_dictUpsert_ne {α : Type} (d : List (Option String × List α))
    (q q' : Option String) (es : List α) (h : q' ≠ q) :
    dictGet (dictUpsert d q es) q' = dictGet d q' := by
  induction d with
  | nil => simp [dictUpsert, dictGet, Ne.symm h]
  | cons kv rest ih =>
    obtain ⟨k, w⟩ := kv
    by_cases hk : k = q
    · subst hk
      simp [dictUpsert, dictGet, Ne.symm h, h]
    · by_cases hk' : k = q'
      · simp [dictUpsert, dictGet, hk, hk', h, Ne.symm h]
      · simp [dictUpsert, dictGet, hk, hk', ih]

theorem dictSetdefault_eq_dictUpsert_nil {α : Type} (d : List (Option String × List α))
    (q : Option String) : dictSetdefault d q = dictUpsert d q [] := by
  induction d with
  | nil => simp [dictSetdefault, dictGet, dictUpsert]
  | cons kv rest ih =>
    obtain ⟨k, w⟩ := kv
    by_cases hk : k = q
    · simp [dictSetdefault, dictGet, dictUpsert, hk]
    · by_cases hc : (dictGet rest q).isSome
      · simp [dictSetdefault, dictGet, dictUpsert, hk, hc] at ih ⊢
        exact ih
      · simp [dictSetdefault, dictGet, dictUpsert, hk, hc] at ih ⊢
        exact ih

theorem dictAppendOne_dictUpsert {α : Type} (d : List (Option String × List α))
    (q : Option String) (es : List α) (x : α) :
    dictAppendOne (dictUpsert d q es) q x = dictUpsert d q (es ++ [x]) := by
  induction d with
  | nil => simp [dictUpsert, dictAppendOne]
  | cons kv rest ih =>
    obtain ⟨k, w⟩ := kv
    by_cases hk : k = q
    · simp [dictUpsert, dictAppendOne, hk]
    · simp [dictUpsert, dictAppendOne, hk, ih]

theorem appendEntries_eq_dictUpsert {α : Type} (d : List (Option String × List α))
    (q : Option String) (es : List α) : appendEntries d q es = dictUpsert d q es := by
  have key : ∀ (es2 acc : List α),
      es2.foldl (fun d2 x => dictAppendOne d2 q x) (dictUpsert d q acc) =
        dictUpsert d q (acc ++ es2) := by
    intro es2
    induction es2 with
    | nil => intro acc; simp
    | cons x xs ih =>
      intro acc
      simp only [List.foldl_cons]
      rw [dictAppendOne_dictUpsert, ih (acc ++ [x])]
      simp
  have h0 := key es []
  simp only [List.nil_append] at h0
  rw [appendEntries, dictSetdefault_eq_dictUpsert_nil, h0]

theorem dictGet_appendEntries_self {α : Type} (d : List (Option String × List α))
    (q : Option String) (es : List α) :
    dictGet (appendEntries d q es) q = some ((dictGet d q).getD [] ++ es) := by
  rw [appendEntries_eq_dictUpsert, dictGet_dictUpsert_self]

theorem dictGet_appendEntries_ne {α : Type} (d : List (Option String × List α))
    (q q' : Option String) (es : List α) (h : q' ≠ q) :
    dictGet (appendEntries d q es) q' = dictGet d q' := by
  rw [appendEntries_eq_dictUpsert, dictGet_dictUpsert_ne _ _ _ _ h]

theorem dictGet_foldl_assign {α β : Type} (key : β → Option String) (val : β → α)
    (l : List β) (d0 : List (Option String × α)) (q : Option String) :
    dictGet (l.foldl (fun d x => dictAssign d (key x) (val x)) d0) q =
      (l.reverse.find? (fun x => decide (key x = q))).elim (dictGet d0 q)
        (fun x => some (val x)) := by
  induction l generalizing d0 with
  | nil => simp [Option.elim]
  | cons x xs ih =>
    simp only [List.foldl_cons, List.reverse_cons, List.find?_append]
    rw [ih]
    cases hfind : xs.reverse.find? (fun y => decide (key y = q)) with
    | some y => simp [hfind, Option.or, Option.elim]
    | none =>
      by_cases hx : key x = q
      · simp [hfind, hx, Option.or, Option.elim, dictGet_dictAssign_self]
      · simp [hfind, hx, Option.or, Option.elim,
          dictGet_dictAssign_ne d0 (key x) q (val x) (fun hh => hx (Eq.symm hh))]

theorem processLookupNode_inactive (cfg : LookupCfg) (st : Tables) (node : LookupNode)
    (h : nodeActive cfg node = false) : processLookupNode cfg st node = st := by
  unfold nodeActive at h
  cases hp : parseLookup node with
  | none => simp [processLookupNode, hp]
  | some p =>
    rw [hp] at h
    have h2 : memOpt p.name cfg.excluded = true := by simpa using h
    simp [processLookupNode, hp, h2]

theorem processLookupNode_active_point (cfg : LookupCfg) (st : Tables) (node : LookupNode)
    (h : nodeActive cfg node = true) :
    dictGet (processLookupNode cfg st node).point xsndgKey = some xsndgValue := by
  unfold nodeActive at h
  cases hp : parseLookup node with
  | none => rw [hp] at h; cases h
  | some p =>
    rw [hp] at h
    simp only [Bool.not_eq_true'] at h
    simp [processLookupNode, hp, h, xsndgAssigned, dictGet_dictAssign_self]

theorem dictGet_loadLookupsFrom_xsndg (cfg : LookupCfg) (nodes : List LookupNode) :
    ∀ st : Tables,
    dictGet (loadLookupsFrom cfg st nodes).point xsndgKey =
      if nodes.any (nodeActive cfg) then some xsndgValue
      else dictGet st.point xsndgKey := by
  induction nodes with
  | nil => intro st; simp [loadLookupsFrom]
  | cons n ns ih =>
    intro st
    simp only [loadLookupsFrom, List.foldl_cons] at ih ⊢
    cases hn : nodeActive cfg n with
    | false =>
      rw [processLookupNode_inactive cfg st n hn, ih st]
      simp [List.any_cons, hn]
    | true =>
      rw [ih (processLookupNode cfg st n)]
      by_cases hns : ns.any (nodeActive cfg) = true
      · simp [List.any_cons, hn, hns]
      · simp only [Bool.not_eq_true] at hns
        simp [List.any_cons, hn, hns,
          processLookupNode_active_point cfg st n hn]

theorem processLookupNode_preserves_excluded (cfg : LookupCfg) (st : Tables)
    (node : LookupNode) (n : String) (hn : n ∈ cfg.excluded) (hx : n ≠ "X-SNDG") :
    dictGet (processLookupNode cfg st node).point (some n) = dictGet st.point (some n) ∧
    dictGet (processLookupNode cfg st node).line (some n) = dictGet st.line (some n) ∧
    dictGet (processLookupNode cfg st node).polygon (some n) = dictGet st.polygon (some n) := by
  have hc : cfg.excluded.contains n = true := List.elem_eq_true_of_mem hn
  cases hp : parseLookup node with
  | none => simp [processLookupNode, hp]
  | some p =>
    by_cases hm : memOpt p.name cfg.excluded = true
    · simp [processLookupNode, hp, hm]
    · have hm' : memOpt p.name cfg.excluded = false := by
        simpa using hm
      have hne : (some n : Option String) ≠ p.name := by
        intro he
        rw [← he] at hm'
        simp [memOpt, hc] at hm'
        exact hm' hn
      have hxk : (some n : Option String) ≠ xsndgKey := by
        simp [xsndgKey, hx]
      by_cases hf : (tableMatch cfg p && catMatch cfg p) = true
      · by_cases h1 : p.lookupType = some "Point"
        · simp [processLookupNode, hp, hm', hf, h1, xsndgAssigned,
            dictGet_dictAssign_ne _ _ _ _ hxk, dictGet_appendEntries_ne _ _ _ _ hne]
        · by_cases h2 : p.lookupType = some "Line"
          · simp [processLookupNode, hp, hm', hf, h1, h2, xsndgAssigned,
              dictGet_dictAssign_ne _ _ _ _ hxk, dictGet_appendEntries_ne _ _ _ _ hne]
          · by_cases h3 : p.lookupType = some "Area"
            · simp [processLookupNode, hp, hm', hf, h1, h2, h3, xsndgAssigned,
                dictGet_dictAssign_ne _ _ _ _ hxk, dictGet_appendEntries_ne _ _ _ _ hne]
            · simp [processLookupNode, hp, hm', hf, h1, h2, h3, xsndgAssigned,
                dictGet_dictAssign_ne _ _ _ _ hxk]
      · simp [processLookupNode, hp, hm', hf, xsndgAssigned,
          dictGet_dictAssign_ne _ _ _ _ hxk]

theorem loadLookupsFrom_preserves_excluded (cfg : LookupCfg) (n : String)
    (hn : n ∈ cfg.excluded) (hx : n ≠ "X-SNDG") (nodes : List LookupNode) :
    ∀ st : Tables,
    dictGet (loadLookupsFrom cfg st nodes).point (some n) = dictGet st.point (some n) ∧
    dictGet (loadLookupsFrom cfg st nodes).line (some n) = dictGet st.line (some n) ∧
    dictGet (loadLookupsFrom cfg st nodes).polygon (some n) = dictGet st.polygon (some n) := by
  induction nodes with
  | nil => intro st; simp [loadLookupsFrom]
  | cons node ns ih =>
    intro st
    simp only [loadLookupsFrom, List.foldl_cons] at ih ⊢
    have hstep := processLookupNode_preserves_excluded cfg st node n hn hx
    have hrest := ih (processLookupNode cfg st node)
    exact ⟨hrest.1.trans hstep.1, hrest.2.1.trans hstep.2.1, hrest.2.2.trans hstep.2.2⟩

theorem matmulList_ne_nil (xs ys : List LookupRec) (hx : xs ≠ []) (hy : ys ≠ []) :
    matmulList xs ys ≠ [] := by
  obtain ⟨a, xs', rfl⟩ := List.exists_cons_of_ne_nil hx
  obtain ⟨b, ys', rfl⟩ := List.exists_cons_of_ne_nil hy
  simp [matmulList]

theorem partStep_ne_nil (lt nm : Option String) (part : String) (acc : List LookupRec)
    (h : acc ≠ []) : partStep lt nm acc part ≠ [] := by
  unfold partStep
  split
  · exact h
  · cases hg : get_command part with
    | cs proc =>
      simp only [hg]
      exact matmulList_ne_nil _ _ h (by simp [lookups_from_cs])
    | other c =>
      simp only [hg]
      simp [addInstructionAll, h]

theorem foldl_partStep_ne_nil (lt nm : Option String) (parts : List String) :
    ∀ acc : List LookupRec, acc ≠ [] → parts.foldl (partStep lt nm) acc ≠ [] := by
  induction parts with
  | nil => intro acc h; simpa using h
  | cons part rest ih =>
    intro acc h
    simp only [List.foldl_cons]
    exact ih _ (partStep_ne_nil lt nm part acc h)

theorem expandInstructions_ne_nil (p : ParsedLookup) : expandInstructions p ≠ [] :=
  foldl_partStep_ne_nil _ _ _ _ (by simp)

/-- Reference recursion transcribed from the claim sentence for the CS
expansion: walk the instruction parts with empty parts removed; a part that
parses as a CS command combines the running lookups via the @ operator with
the lookups produced by lookups_from_cs for its procedure, the lookup type
and the feature name; any other part is appended to the instruction list. -/
def specInstructionExpansion (ltype nm : Option String) (acc : List LookupRec) :
    List String → List LookupRec
  | [] => acc
  | part :: rest =>
    match get_command part with
    | Command.cs proc =>
      specInstructionExpansion ltype nm (matmulList acc (lookups_from_cs proc ltype nm)) rest
    | Command.other c =>
      specInstructionExpansion ltype nm (addInstructionAll acc (Command.other c)) rest

theorem foldl_partStep_eq_spec (lt nm : Option String) (parts : List String) :
    ∀ acc : List LookupRec,
    parts.foldl (partStep lt nm) acc =
      specInstructionExpansion lt nm acc (parts.filter (fun s => decide (s ≠ ""))) := by
  induction parts with
  | nil => intro acc; simp [specInstructionExpansion]
  | cons part rest ih =>
    intro acc
    by_cases hp : part = ""
    · subst hp
      simp only [List.foldl_cons, List.filter_cons]
      simp [partStep, ih]
    · simp only [List.foldl_cons, List.filter_cons]
      have hd : (decide (part ≠ "")) = true := by simp [hp]
      rw [hd]
      simp only [if_true]
      cases hg : get_command part with
      | cs proc =>
        simp only [partStep, hp, if_neg hp, hg, specInstructionExpansion]
        exact ih _
      | other c =>
        simp only [partStep, hp, if_neg hp, hg, specInstructionExpansion]
        exact ih _

/-- A catalog configuration with the default point table, area table,
AllInclusive display categories and default exclusions. -/
def stdCfg : LookupCfg := ⟨"Simplified", "Plain", none, ["M_QUAL"]⟩

/-- C10: after construction, point_lookups contains the virtual X-SNDG key,
bound to xsndgValue (the SOUNDG conditional-symbology expansion combined
with the Paper and Simplified table variants), if and only if at least one
lookup element was fully parsed and not excluded -- the virtual assignment
sits inside the loop body, so a catalog whose XML has no well-formed,
non-excluded lookup element has no X-SNDG entry. -/
theorem c10_xsndg_presence (cfg : LookupCfg) (nodes : List LookupNode) :
    dictGet (load_lookups cfg nodes).point xsndgKey =
      if nodes.any (nodeActive cfg) then some xsndgValue else none := by
  rw [load_lookups, dictGet_loadLookupsFrom_xsndg]
  by_cases h : nodes.any (nodeActive cfg) = true
  · simp [h]
  · simp only [Bool.not_eq_true] at h
    simp [h, emptyTables, dictGet]

/-- C9: no lookup element whose name is in the excluded-lookup list ever
contributes an entry to point_lookups, line_lookups or polygon_lookups (its
name is never a key of any of the three tables, the virtual X-SNDG key
excepted); the virtual X-SNDG entry is assigned without consulting the
exclusion list, so it is present whenever any non-excluded lookup parses,
even when X-SNDG itself is excluded; and the default exclusion list of
ChartSymbols.__init__ is the single name M_QUAL. -/
theorem c9_excluded_never_appears (cfg : LookupCfg) (nodes : List LookupNode)
    (n : String) (hn : n ∈ cfg.excluded) :
    (n ≠ "X-SNDG" →
      dictGet (load_lookups cfg nodes).point (some n) = none ∧
      dictGet (load_lookups cfg nodes).line (some n) = none ∧
      dictGet (load_lookups cfg nodes).polygon (some n) = none) ∧
    (nodes.any (nodeActive cfg) = true →
      dictGet (load_lookups cfg nodes).point xsndgKey = some xsndgValue) ∧
    (∀ (pt ar : String) (cats : Option (List String)),
      (mkCfg pt ar cats none).excluded = ["M_QUAL"]) := by
  refine ⟨?_, ?_, ?_⟩
  · intro hx
    have h := loadLookupsFrom_preserves_excluded cfg n hn hx nodes emptyTables
    simpa [load_lookups, emptyTables, dictGet] using h
  · intro hact
    rw [load_lookups, dictGet_loadLookupsFrom_xsndg, if_pos hact]
  · intro pt ar cats
    rfl

/-- A catalog configuration that also excludes the virtual name X-SNDG. -/
def cfgC9 : LookupCfg := ⟨"Simplified", "Plain", none, ["M_QUAL", "X-SNDG"]⟩

/-- A well-formed Point lookup element for the DEPCNT feature. -/
def goodNodeC9 : LookupNode :=
  ⟨some "DEPCNT", some "7", some (some "Point"), some (some "Simplified"),
    some (some "Standard"), some none, some (some "LS(SOLD,1,DEPCN)"), [],
    some (some "5")⟩

/-- Witness for C9: with M_QUAL and X-SNDG excluded and one good DEPCNT
lookup, M_QUAL gets no table entry while the virtual X-SNDG entry survives
its own exclusion. -/
theorem c9_excluded_never_appears_witness :
    dictGet (load_lookups cfgC9 [goodNodeC9]).point (some "M_QUAL") = none ∧
    dictGet (load_lookups cfgC9 [goodNodeC9]).point xsndgKey = some xsndgValue :=
  ⟨((c9_excluded_never_appears cfgC9 [goodNodeC9] "M_QUAL" (by decide)).1 (by decide)).1,
   (c9_excluded_never_appears cfgC9 [goodNodeC9] "X-SNDG" (by decide)).2.1 (by decide)⟩

/-- C3: a symbol or lookup element whose required child element or
attribute is missing, so that extracting its fields raises, is skipped: it
produces no entry, no error propagates, and loading continues with the
remaining nodes. -/
theorem c3_malformed_skipped (ds : List (Option String × SymbolDef)) (s : SymbolNode)
    (restS : List SymbolNode) (cfg : LookupCfg) (st : Tables) (node : LookupNode)
    (rest : List LookupNode) (hs : parseSymbol s = none) (hl : parseLookup node = none) :
    loadSymbolsStep ds s = ds ∧
    load_symbols ds (s :: restS) = load_symbols ds restS ∧
    processLookupNode cfg st node = st ∧
    loadLookupsFrom cfg st (node :: rest) = loadLookupsFrom cfg st rest := by
  have h1 : loadSymbolsStep ds s = ds := by simp [loadSymbolsStep, hs]
  have h3 : processLookupNode cfg st node = st := by simp [processLookupNode, hl]
  exact ⟨h1, by simp [load_symbols, h1], h3, by simp [loadLookupsFrom, h3]⟩

/-- A symbol element with a name but no bitmap child: extraction raises. -/
def badSymC3 : SymbolNode := ⟨some (some "BCNCAR01"), none⟩

/-- A lookup element with no type child: extraction raises. -/
def badLookupC3 : LookupNode :=
  ⟨some "FOO", some "1", none, some (some "Lines"), some (some "Standard"),
    some none, some none, [], some (some "0")⟩

/-- Witness for C3 at the concrete malformed nodes. -/
theorem c3_malformed_skipped_witness :
    loadSymbolsStep [] badSymC3 = [] ∧
    processLookupNode stdCfg emptyTables badLookupC3 = emptyTables :=
  ⟨(c3_malformed_skipped [] badSymC3 [] stdCfg emptyTables badLookupC3 [] rfl rfl).1,
   (c3_malformed_skipped [] badSymC3 [] stdCfg emptyTables badLookupC3 [] rfl rfl).2.2.1⟩

/-- C4: every lookup that passes the table-name and display-category
filters is appended, keyed by its name and in document order, to exactly
the lookup table selected by its type text: Point to point_lookups, Line to
line_lookups, Area to polygon_lookups; a lookup with any other type value
is discarded and its entries reach none of the three tables (only the
unconditional virtual X-SNDG assignment happens); the final conjunct states
that the dict update appends the produced entries after any existing
entries under the name. -/
theorem c4_type_dispatch (cfg : LookupCfg) (st : Tables) (node : LookupNode)
    (p : ParsedLookup) (hp : parseLookup node = some p)
    (hm : memOpt p.name cfg.excluded = false)
    (ht : tableMatch cfg p = true) (hc : catMatch cfg p = true) :
    (p.lookupType = some "Point" →
      processLookupNode cfg st node =
        ⟨dictAssign (dictUpsert st.point p.name (expandInstructions p)) xsndgKey xsndgValue,
         st.line, st.polygon⟩) ∧
    (p.lookupType = some "Line" →
      processLookupNode cfg st node =
        ⟨dictAssign st.point xsndgKey xsndgValue,
         dictUpsert st.line p.name (expandInstructions p), st.polygon⟩) ∧
    (p.lookupType = some "Area" →
      processLookupNode cfg st node =
        ⟨dictAssign st.point xsndgKey xsndgValue, st.line,
         dictUpsert st.polygon p.name (expandInstructions p)⟩) ∧
    (p.lookupType ≠ some "Point" → p.lookupType ≠ some "Line" →
      p.lookupType ≠ some "Area" →
      processLookupNode cfg st node = xsndgAssigned st) ∧
    (∀ (d : List (Option String × List LookupRec)) (q : Option String)
      (es : List LookupRec),
      dictGet (dictUpsert d q es) q = some ((dictGet d q).getD [] ++ es)) := by
  have hf : (tableMatch cfg p && catMatch cfg p) = true := by simp [ht, hc]
  refine ⟨?_, ?_, ?_, ?_, ?_⟩
  · intro h1
    simp [processLookupNode, hp, hm, hf, h1, xsndgAssigned, appendEntries_eq_dictUpsert]
  · intro h2
    have h1 : p.lookupType ≠ some "Point" := by rw [h2]; decide
    simp [processLookupNode, hp, hm, hf, h1, h2, xsndgAssigned, appendEntries_eq_dictUpsert]
  · intro h3
    have h1 : p.lookupType ≠ some "Point" := by rw [h3]; decide
    have h2 : p.lookupType ≠ some "Line" := by rw [h3]; decide
    simp [processLookupNode, hp, hm, hf, h1, h2, h3, xsndgAssigned, appendEntries_eq_dictUpsert]
  · intro h1 h2 h3
    simp [processLookupNode, hp, hm, hf, h1, h2, h3, xsndgAssigned]
  · intro d q es
    exact dictGet_dictUpsert_self d q es

/-- A well-formed Point lookup element for the DEPCNT feature, accepted by
the default configuration. -/
def nodeC4 : LookupNode :=
  ⟨some "DEPCNT", some "7", some (some "Point"), some (some "Simplified"),
    some (some "Standard"), some none, some (some "LS(SOLD,1,DEPCN)"), [],
    some (some "5")⟩

/-- The parsed fields of nodeC4. -/
def pC4 : ParsedLookup :=
  ⟨some "DEPCNT", some "7", some "Point", some "Simplified", some "Standard",
    none, "LS(SOLD,1,DEPCN)", [], some "5"⟩

/-- Witness for C4: the accepted Point lookup lands in point_lookups under
its name, leaving the other tables untouched. -/
theorem c4_type_dispatch_witness :
    processLookupNode stdCfg emptyTables nodeC4 =
      ⟨dictAssign (dictUpsert emptyTables.point pC4.name (expandInstructions pC4))
        xsndgKey xsndgValue, emptyTables.line, emptyTables.polygon⟩ :=
  (c4_type_dispatch stdCfg emptyTables nodeC4 pC4 rfl (by decide) (by decide)
    (by decide)).1 rfl

/-- C2: for an accepted lookup the produced table entries arise from the
single base lookup via the instruction-part loop: a part that parses as a
CS command combines the running lookups via the @ operator with the
lookups_from_cs expansion for its procedure, the lookup type and the
feature name; a non-empty part that is not a CS command is appended to the
instruction list; empty parts are ignored. The first conjunct equates the
loop with the reference recursion over the non-empty parts; the last lands
the expansion under the lookup's name in point_lookups. -/
theorem c2_cs_expansion (p : ParsedLookup) :
    expandInstructions p =
      specInstructionExpansion p.lookupType p.name [baseLookup p]
        ((pySplit ';' p.strInstruction).filter (fun s => decide (s ≠ ""))) ∧
    (∀ (acc : List LookupRec) (part proc : String), part ≠ "" →
      get_command part = Command.cs proc →
      partStep p.lookupType p.name acc part =
        matmulList acc (lookups_from_cs proc p.lookupType p.name)) ∧
    (∀ (acc : List LookupRec) (part c : String), part ≠ "" →
      get_command part = Command.other c →
      partStep p.lookupType p.name acc part =
        addInstructionAll acc (Command.other c)) ∧
    (∀ acc : List LookupRec, partStep p.lookupType p.name acc "" = acc) ∧
    (∀ (cfg : LookupCfg) (st : Tables) (node : LookupNode),
      parseLookup node = some p → memOpt p.name cfg.excluded = false →
      tableMatch cfg p = true → catMatch cfg p = true →
      p.lookupType = some "Point" → p.name ≠ xsndgKey →
      dictGet (processLookupNode cfg st node).point p.name =
        some ((dictGet st.point p.name).getD [] ++ expandInstructions p)) := by
  refine ⟨?_, ?_, ?_, ?_, ?_⟩
  · rw [expandInstructions]
    exact foldl_partStep_eq_spec _ _ _ _
  · intro acc part proc hne hg
    simp [partStep, hne, hg]
  · intro acc part c hne hg
    simp [partStep, hne, hg]
  · intro acc
    simp [partStep]
  · intro cfg st node hp hm ht hc h1 hxn
    have hf : (tableMatch cfg p && catMatch cfg p) = true := by simp [ht, hc]
    simp [processLookupNode, hp, hm, hf, h1, xsndgAssigned,
      dictGet_dictAssign_ne _ _ _ _ hxn, dictGet_appendEntries_self]

/-- The parsed fields of a SOUNDG Point lookup whose instruction is a CS
part. -/
def pC2 : ParsedLookup :=
  ⟨some "SOUNDG", some "9", some "Point", some "Simplified", some "Standard",
    none, "CS(SOUNDG)", [], some "5"⟩

/-- Witness for C2: the concrete CS part combines via @ with the SOUNDG
expansion, a concrete symbol part is appended as an instruction, and the
empty part does nothing. -/
theorem c2_cs_expansion_witness :
    partStep pC2.lookupType pC2.name [baseLookup pC2] "CS(SOUNDG)" =
      matmulList [baseLookup pC2] (lookups_from_cs "SOUNDG" pC2.lookupType pC2.name) ∧
    partStep pC2.lookupType pC2.name [baseLookup pC2] "SY(BOYLAT)" =
      addInstructionAll [baseLookup pC2] (Command.other "SY(BOYLAT)") ∧
    partStep pC2.lookupType pC2.name [baseLookup pC2] "" = [baseLookup pC2] :=
  ⟨(c2_cs_expansion pC2).2.1 _ "CS(SOUNDG)" "SOUNDG" (by decide) (by decide),
   (c2_cs_expansion pC2).2.2.1 _ "SY(BOYLAT)" "SY(BOYLAT)" (by decide) (by decide),
   (c2_cs_expansion pC2).2.2.2.1 _⟩

theorem tables_ne_of_point (a b : Tables) (q : Option String)
    (h : dictGet a.point q ≠ dictGet b.point q) : a ≠ b :=
  fun he => h (by rw [he])

theorem tables_ne_of_line (a b : Tables) (q : Option String)
    (h : dictGet a.line q ≠ dictGet b.line q) : a ≠ b :=
  fun he => h (by rw [he])

theorem tables_ne_of_polygon (a b : Tables) (q : Option String)
    (h : dictGet a.polygon q ≠ dictGet b.polygon q) : a ≠ b :=
  fun he => h (by rw [he])

/-- C1 (amended): for a lookup element that parses, is not excluded and is
not named like the virtual X-SNDG entry, the loop iteration adds an entry
to the lookup tables (changes them beyond the unconditional virtual X-SNDG
assignment) if and only if its table-name text equals the configured point
table, the configured area table or Lines, its display-cat text passes the
display-category filter (every category accepted when none is configured),
and additionally its type text is Point, Line or Area. -/
theorem c1_filter_iff (cfg : LookupCfg) (st : Tables) (node : LookupNode)
    (p : ParsedLookup) (hp : parseLookup node = some p)
    (hm : memOpt p.name cfg.excluded = false) (hxn : p.name ≠ xsndgKey) :
    processLookupNode cfg st node ≠ xsndgAssigned st ↔
      (tableMatch cfg p = true ∧ catMatch cfg p = true ∧
        (p.lookupType = some "Point" ∨ p.lookupType = some "Line" ∨
          p.lookupType = some "Area")) := by
  have key : ∀ (o : Option (List LookupRec)),
      some (o.getD [] ++ expandInstructions p) ≠ o := by
    intro o
    cases o with
    | none => simp
    | some v =>
      intro he
      have hv := Option.some.inj he
      have hlen := congrArg List.length hv
      simp [List.length_append] at hlen
      exact expandInstructions_ne_nil p hlen
  have hEqNoAdd : (tableMatch cfg p && catMatch cfg p) = false →
      processLookupNode cfg st node = xsndgAssigned st := by
    intro hf
    simp [processLookupNode, hp, hm, hf]
  have hEqBadType : (tableMatch cfg p && catMatch cfg p) = true →
      p.lookupType ≠ some "Point" → p.lookupType ≠ some "Line" →
      p.lookupType ≠ some "Area" →
      processLookupNode cfg st node = xsndgAssigned st := by
    intro hf h1 h2 h3
    simp [processLookupNode, hp, hm, hf, h1, h2, h3]
  constructor
  · intro hne
    by_cases ht : tableMatch cfg p = true
    · by_cases hc : catMatch cfg p = true
      · refine ⟨ht, hc, ?_⟩
        by_cases h1 : p.lookupType = some "Point"
        · exact Or.inl h1
        · by_cases h2 : p.lookupType = some "Line"
          · exact Or.inr (Or.inl h2)
          · by_cases h3 : p.lookupType = some "Area"
            · exact Or.inr (Or.inr h3)
            · exact absurd (hEqBadType (by simp [ht, hc]) h1 h2 h3) hne
      · have hc' : catMatch cfg p = false := by simpa using hc
        exact absurd (hEqNoAdd (by simp [hc'])) hne
    · have ht' : tableMatch cfg p = false := by simpa using ht
      exact absurd (hEqNoAdd (by simp [ht'])) hne
  · rintro ⟨ht, hc, htype⟩
    have hf : (tableMatch cfg p && catMatch cfg p) = true := by simp [ht, hc]
    rcases htype with h1 | h2 | h3
    · have hres : processLookupNode cfg st node =
          ⟨dictAssign (appendEntries st.point p.name (expandInstructions p))
            xsndgKey xsndgValue, st.line, st.polygon⟩ := by
        simp [processLookupNode, hp, hm, hf, h1, xsndgAssigned]
      rw [hres]
      refine tables_ne_of_point _ _ p.name ?_
      simp only [xsndgAssigned]
      rw [dictGet_dictAssign_ne _ _ _ _ hxn, dictGet_dictAssign_ne _ _ _ _ hxn,
        dictGet_appendEntries_self]
      exact key _
    · have h1 : p.lookupType ≠ some "Point" := by rw [h2]; decide
      have hres : processLookupNode cfg st node =
          ⟨dictAssign st.point xsndgKey xsndgValue,
            appendEntries st.line p.name (expandInstructions p), st.polygon⟩ := by
        simp [processLookupNode, hp, hm, hf, h1, h2, xsndgAssigned]
      rw [hres]
      refine tables_ne_of_line _ _ p.name ?_
      simp only [xsndgAssigned]
      rw [dictGet_appendEntries_self]
      exact key _
    · have h1 : p.lookupType ≠ some "Point" := by rw [h3]; decide
      have h2 : p.lookupType ≠ some "Line" := by rw [h3]; decide
      have hres : processLookupNode cfg st node =
          ⟨dictAssign st.point xsndgKey xsndgValue, st.line,
            appendEntries st.polygon p.name (expandInstructions p)⟩ := by
        simp [processLookupNode, hp, hm, hf, h1, h2, h3, xsndgAssigned]
      rw [hres]
      refine tables_ne_of_polygon _ _ p.name ?_
      simp only [xsndgAssigned]
      rw [dictGet_appendEntries_self]
      exact key _

/-- A parsed, non-excluded lookup element whose table-name is Lines and
whose display category is accepted, but whose type text is the unhandled
value Symbol. -/
def nodeWeirdC1 : LookupNode :=
  ⟨some "FOO", some "1", some (some "Symbol"), some (some "Lines"),
    some (some "Standard"), some none, some none, [], some (some "5")⟩

/-- The parsed fields of nodeWeirdC1. -/
def pWeirdC1 : ParsedLookup :=
  ⟨some "FOO", some "1", some "Symbol", some "Lines", some "Standard", none,
    "", [], some "5"⟩

/-- A parsed, non-excluded Point lookup element carrying the virtual name
X-SNDG itself. -/
def nodeXC1 : LookupNode :=
  ⟨some "X-SNDG", some "2", some (some "Point"), some (some "Lines"),
    some (some "Standard"), some none, some none, [], some (some "5")⟩

/-- The parsed fields of nodeXC1. -/
def pXC1 : ParsedLookup :=
  ⟨some "X-SNDG", some "2", some "Point", some "Lines", some "Standard",
    none, "", [], some "5"⟩

/-- Counterexample to C1 as stated: two parsed, non-excluded lookup
elements pass the table-name and display-category filters, yet the loop
iteration adds no entry for them -- the state equals the bare virtual
X-SNDG assignment -- once because the type text Symbol is unhandled, once
because the element's own name is the virtual key X-SNDG, whose entry the
unconditional assignment overwrites. So entry addition is not equivalent
to the two filters alone. -/
theorem c1_filter_iff_counterexample :
    (parseLookup nodeWeirdC1 = some pWeirdC1 ∧
      memOpt pWeirdC1.name stdCfg.excluded = false ∧
      tableMatch stdCfg pWeirdC1 = true ∧ catMatch stdCfg pWeirdC1 = true ∧
      processLookupNode stdCfg emptyTables nodeWeirdC1 = xsndgAssigned emptyTables) ∧
    (parseLookup nodeXC1 = some pXC1 ∧
      memOpt pXC1.name stdCfg.excluded = false ∧
      tableMatch stdCfg pXC1 = true ∧ catMatch stdCfg pXC1 = true ∧
      pXC1.lookupType = some "Point" ∧
      processLookupNode stdCfg emptyTables nodeXC1 = xsndgAssigned emptyTables) := by
  decide

/-- A well-formed Point lookup element for the BOYCAR feature, accepted by
the default configuration. -/
def nodeGoodC1 : LookupNode :=
  ⟨some "BOYCAR", some "3", some (some "Point"), some (some "Simplified"),
    some (some "Standard"), some none, some (some "SY(BOYCAR01)"), [],
    some (some "6")⟩

/-- The parsed fields of nodeGoodC1. -/
def pGoodC1 : ParsedLookup :=
  ⟨some "BOYCAR", some "3", some "Point", some "Simplified", some "Standard",
    none, "SY(BOYCAR01)", [], some "6"⟩

/-- Witness for the amended C1 at a concrete accepted Point lookup. -/
theorem c1_filter_iff_witness :
    processLookupNode stdCfg emptyTables nodeGoodC1 ≠ xsndgAssigned emptyTables :=
  (c1_filter_iff stdCfg emptyTables nodeGoodC1 pGoodC1 rfl (by decide)
    (by decide)).mpr ⟨by decide, by decide, Or.inl rfl⟩

/-- C5: get_point_mapfile wraps the built layer in a LightsLayer exactly
when the feature is LIGHTS and returns a plain Layer otherwise; the layer
is built with geometry POINT from the point_lookups entry for the feature,
defaulting to the empty lookup list when the feature has no entry; and
get_line_mapfile and get_poly_mapfile build plain LINE and POLYGON layers
from line_lookups and polygon_lookups with the same empty-list default. -/
theorem c5_layer_emitters (st : Tables) (layerArg feature group msd : String)
    (fields : List String) :
    ((∃ l, get_point_mapfile st layerArg feature group msd fields =
        MapfileLayer.lights l) ↔ feature = "LIGHTS") ∧
    (get_point_mapfile st layerArg feature group msd fields).inner =
      ⟨layerArg, feature, "POINT", group, msd, fields,
        (dictGet st.point (some feature)).getD []⟩ ∧
    (dictGet st.point (some feature) = none →
      ((get_point_mapfile st layerArg feature group msd fields).inner).lookups = []) ∧
    get_line_mapfile st layerArg feature group msd fields =
      MapfileLayer.plain ⟨layerArg, feature, "LINE", group, msd, fields,
        (dictGet st.line (some feature)).getD []⟩ ∧
    get_poly_mapfile st layerArg feature group msd fields =
      MapfileLayer.plain ⟨layerArg, feature, "POLYGON", group, msd, fields,
        (dictGet st.polygon (some feature)).getD []⟩ := by
  refine ⟨⟨?_, ?_⟩, ?_, ?_, rfl, rfl⟩
  · rintro ⟨l, hl⟩
    by_cases hf : feature = "LIGHTS"
    · exact hf
    · simp [get_point_mapfile, hf] at hl
  · intro hf
    subst hf
    exact ⟨_, rfl⟩
  · by_cases hf : feature = "LIGHTS" <;>
      simp [get_point_mapfile, hf, MapfileLayer.inner]
  · intro h
    by_cases hf : feature = "LIGHTS"
    · subst hf
      simp [get_point_mapfile, MapfileLayer.inner, h]
    · simp [get_point_mapfile, hf, MapfileLayer.inner, h]

/-- Witness for C5: a feature without a point_lookups entry yields a layer
with the empty lookup list. -/
theorem c5_layer_emitters_witness :
    ((get_point_mapfile emptyTables "layer9" "WRECKS" "g" "25000" []).inner).lookups = [] :=
  (c5_layer_emitters emptyTables "layer9" "WRECKS" "g" "25000" []).2.2.1 rfl

/-- C6: load_color_table maps every color-table element's name to the dict
sending each contained color's name to a Color of its r, g, b attributes
(later elements of the same name winning, per Python dict assignment), and
load_colors picks the table with the configured name, defaulting to the
empty mapping when no such table exists. -/
theorem c6_color_tables (nodes : List ColorTableNode) (q : Option String)
    (t : ColorTableNode) (k : Option String)
    (tables : List (Option String × List (Option String × Color))) (ctName : String) :
    dictGet (load_color_table nodes) q =
      Option.map colorsOfTable (nodes.reverse.find? (fun x => decide (x.tname = q))) ∧
    dictGet (colorsOfTable t) k =
      Option.map (fun c => Color.mk c.r c.g c.b)
        (t.colors.reverse.find? (fun c => decide (c.cname = k))) ∧
    (dictGet tables (some ctName) = none → load_colors tables ctName = []) ∧
    (∀ v, dictGet tables (some ctName) = some v → load_colors tables ctName = v) := by
  refine ⟨?_, ?_, ?_, ?_⟩
  · rw [load_color_table, dictGet_foldl_assign ColorTableNode.tname colorsOfTable]
    cases nodes.reverse.find? (fun x => decide (x.tname = q)) <;>
      simp [Option.elim, dictGet]
  · rw [colorsOfTable,
      dictGet_foldl_assign ColorNode.cname (fun c => Color.mk c.r c.g c.b)]
    cases t.colors.reverse.find? (fun c => decide (c.cname = k)) <;>
      simp [Option.elim, dictGet]
  · intro h
    simp [load_colors, h]
  · intro v h
    simp [load_colors, h]

/-- Witness for C6: looking up a color table in an empty catalog yields the
empty mapping. -/
theorem c6_color_tables_witness : load_colors [] "DAY_BRIGHT" = [] :=
  (c6_color_tables [] none ⟨none, []⟩ none [] "DAY_BRIGHT").2.2.1 rfl

/-- C7: when the TOML configuration lacks the paths.data key (or the whole
paths table), the program exits with status 1 and the stderr message, before
resolving any other path or producing any run values. -/
theorem c7_missing_data_path (baseDir : String) (cfg : TomlConfig) (fmt : Format)
    (h : Option.bind cfg.paths PathsTbl.data = none) :
    mainLogic baseDir cfg fmt =
      MainOutcome.exitErr 1 "Data path missing from configuration file" := by
  cases hp : cfg.paths with
  | none => simp [mainLogic, hp]
  | some paths =>
    rw [hp] at h
    simp only [Option.bind] at h
    simp [mainLogic, hp, h]

/-- A TOML configuration with no paths table at all. -/
def cfgC7 : TomlConfig := {}

/-- Witness for C7 at the concrete configuration with no paths table. -/
theorem c7_missing_data_path_witness :
    mainLogic "base" cfgC7 Format.Chart =
      MainOutcome.exitErr 1 "Data path missing from configuration file" :=
  c7_missing_data_path "base" cfgC7 Format.Chart rfl

/-- C8: whenever the entry point reaches chart generation, the
display-category collection it passes on is the configured displaycategory
string (default Standard) split on commas with Displaybase appended, so a
lookup whose display-cat is Displaybase always passes the category filter
no matter what was configured. -/
theorem c8_displaybase_always (baseDir : String) (cfg : TomlConfig) (fmt : Format)
    (r : ResolvedRun) (h : mainLogic baseDir cfg fmt = MainOutcome.run r) :
    r.displaycategory =
      pySplit ',' (cfg.displaycategory.getD "Standard") ++ ["Displaybase"] ∧
    "Displaybase" ∈ r.displaycategory ∧
    (∀ (ptT arT : String) (excl : List String) (p : ParsedLookup),
      p.display = some "Displaybase" →
      catMatch ⟨ptT, arT, some r.displaycategory, excl⟩ p = true) := by
  have hd : r.displaycategory =
      pySplit ',' (cfg.displaycategory.getD "Standard") ++ ["Displaybase"] := by
    cases hp : cfg.paths with
    | none => simp [mainLogic, hp] at h
    | some paths =>
      cases hdt : paths.data with
      | none => simp [mainLogic, hp, hdt] at h
      | some dataRel =>
        simp only [mainLogic, hp, hdt] at h
        split at h
        · cases fmt with
          | Chart =>
            simp only [MainOutcome.run.injEq] at h
            rw [← h]
          | BaseChart => simp at h
          | GeoTIF => simp at h
          | Elevation => simp at h
          | AML => simp at h
        · simp at h
  refine ⟨hd, ?_, ?_⟩
  · rw [hd]
    exact List.mem_append_right _ (List.mem_singleton.mpr rfl)
  · intro ptT arT excl p hdisp
    simp only [catMatch, hdisp]
    rw [hd]
    simp [List.contains_eq_any_beq]

/-- A minimal TOML configuration that reaches chart generation: only
paths.data is set. -/
def cfgC8 : TomlConfig := { paths := some { data := some "charts" } }

/-- The resolved run the entry point produces for cfgC8. -/
def runC8 : ResolvedRun :=
  ⟨"b/charts", "b/charts/../map", "resources/rules",
    "resources/chartsymbols/chartsymbols_S57.xml", "Simplified", "Plain",
    ["Standard", "Displaybase"], "", none⟩

/-- Witness for C8 at the concrete minimal configuration. -/
theorem c8_displaybase_always_witness :
    runC8.displaycategory =
      pySplit ',' (cfgC8.displaycategory.getD "Standard") ++ ["Displaybase"] ∧
    "Displaybase" ∈ runC8.displaycategory :=
  ⟨(c8_displaybase_always "b" cfgC8 Format.Chart runC8 (by decide)).1,
   (c8_displaybase_always "b" cfgC8 Format.Chart runC8 (by decide)).2.1⟩
